import Mathlib

/-!
Shallow embedding of the core logic of the SEL agent application
(src/pages/app.py): the sliding-window rate limiter, the usage/cost
tracker, the bounded conversation memory, the Claude call gateway, and
the SEL screening engine (classification, class aggregation, session
handlers, save/load round trip).

Numeric conventions: Python floats and datetimes are embedded as exact
rationals (ℚ); token counts and ratings are ℕ.  Python dicts (which
preserve insertion order) are embedded as ordered association lists.
-/

namespace SelAgent

/-! ## Constants (src/pages/app.py lines 34-40) -/

def INPUT_COST_PER_MTK : ℚ := 3.00
def OUTPUT_COST_PER_MTK : ℚ := 15.00
def CACHE_WRITE_COST_PER_MTK : ℚ := 3.75
def CACHE_READ_COST_PER_MTK : ℚ := 0.30

def MAX_CALLS_PER_MINUTE : ℕ := 50
def MAX_CALLS_PER_HOUR : ℕ := 1000

/-! ## Rate limiter (src/pages/app.py lines 86-107)

The limiter state holds `st.session_state.api_call_times` (a list of
call timestamps, embedded as rationals measured in seconds) and
`st.session_state.total_api_calls`. -/

structure RateLimiterState where
  api_call_times : List ℚ
  total_api_calls : ℕ
deriving Repr, DecidableEq

/-- One hour in seconds: `timedelta(hours=1)` of the source. -/
def hourSeconds : ℚ := 3600

/-- One minute in seconds: `timedelta(minutes=1)` of the source. -/
def minuteSeconds : ℚ := 60

/-- The pruning step of `check_rate_limit`: keep timestamps `t` with
`current_time - t < timedelta(hours=1)`. -/
def pruneHour (now : ℚ) (times : List ℚ) : List ℚ :=
  times.filter (fun t => decide (now - t < hourSeconds))

/-- Embedding of `RateLimiter.check_rate_limit` (lines 87-102).  It first
replaces the window by its hour-pruned version, then counts entries in the
last minute against `MAX_CALLS_PER_MINUTE`, then the whole pruned window
against `MAX_CALLS_PER_HOUR`.  Returns `((allowed, message), new state)`. -/
def check_rate_limit (now : ℚ) (s : RateLimiterState) :
    (Bool × String) × RateLimiterState :=
  let pruned := pruneHour now s.api_call_times
  let recent := pruned.filter (fun t => decide (now - t < minuteSeconds))
  if MAX_CALLS_PER_MINUTE ≤ recent.length then
    ((false, "Rate limit exceeded: Maximum 50 calls per minute"),
      { s with api_call_times := pruned })
  else if MAX_CALLS_PER_HOUR ≤ pruned.length then
    ((false, "Rate limit exceeded: Maximum 1000 calls per hour"),
      { s with api_call_times := pruned })
  else
    ((true, "OK"), { s with api_call_times := pruned })

/-- Embedding of `RateLimiter.record_api_call` (lines 104-107): append the
current time to the window and increment the monotone call counter. -/
def record_api_call (now : ℚ) (s : RateLimiterState) : RateLimiterState :=
  { api_call_times := s.api_call_times ++ [now],
    total_api_calls := s.total_api_calls + 1 }

/-- The gateway discipline of `call_claude` / `call_claude_streaming`: run
`check_rate_limit`; when it allows, immediately `record_api_call` the same
attempt.  Returns whether the attempt was allowed together with the new
limiter state. -/
def rateLimitedCall (now : ℚ) (s : RateLimiterState) : Bool × RateLimiterState :=
  let res := check_rate_limit now s
  if res.1.1 then (true, record_api_call now res.2) else (false, res.2)

/-- Run a sequence of gateway attempts at the given (nondecreasing) times.
Returns the final limiter state and the list of timestamps of the attempts
for which `check_rate_limit` returned allowed. -/
def runCalls (s : RateLimiterState) : List ℚ → RateLimiterState × List ℚ
  | [] => (s, [])
  | t :: ts =>
      let step := rateLimitedCall t s
      let rest := runCalls step.2 ts
      (rest.1, (if step.1 then [t] else []) ++ rest.2)

/-- Number of timestamps of `A` falling in the trailing window `(T - d, T]`. -/
def windowCount (d T : ℚ) (A : List ℚ) : ℕ :=
  (A.filter (fun x => decide (x ≤ T) && decide (T - x < d))).length

/-- The initial limiter state (`SESSION_STATE_DEFAULTS`, lines 51-53). -/
def initRateLimiterState : RateLimiterState := { api_call_times := [], total_api_calls := 0 }

/-! ## Usage tracker (src/pages/app.py lines 111-132) -/

structure UsageState where
  total_tokens_used : ℕ
  estimated_cost : ℚ
deriving Repr, DecidableEq

/-- Embedding of `UsageTracker.update_usage` (lines 112-120). -/
def update_usage (input_tokens output_tokens : ℕ)
    (cache_creation_tokens : ℕ := 0) (cache_read_tokens : ℕ := 0)
    (s : UsageState) : UsageState :=
  let total_tokens := input_tokens + output_tokens
  let input_cost := ((input_tokens : ℚ) / 1000000) * INPUT_COST_PER_MTK
  let output_cost := ((output_tokens : ℚ) / 1000000) * OUTPUT_COST_PER_MTK
  let cache_write_cost := ((cache_creation_tokens : ℚ) / 1000000) * CACHE_WRITE_COST_PER_MTK
  let cache_read_cost := ((cache_read_tokens : ℚ) / 1000000) * CACHE_READ_COST_PER_MTK
  { total_tokens_used := s.total_tokens_used + total_tokens,
    estimated_cost := s.estimated_cost + (input_cost + output_cost + cache_write_cost + cache_read_cost) }

/-- One recorded API response: the four token counts passed to `update_usage`. -/
structure UsageCall where
  input_tokens : ℕ
  output_tokens : ℕ
  cache_creation_tokens : ℕ
  cache_read_tokens : ℕ
deriving Repr, DecidableEq

/-- The cost increment one `update_usage` call adds (the sum of the four
per-category costs of lines 116-120). -/
def usageDelta (c : UsageCall) : ℚ :=
  ((c.input_tokens : ℚ) / 1000000) * INPUT_COST_PER_MTK +
  ((c.output_tokens : ℚ) / 1000000) * OUTPUT_COST_PER_MTK +
  ((c.cache_creation_tokens : ℚ) / 1000000) * CACHE_WRITE_COST_PER_MTK +
  ((c.cache_read_tokens : ℚ) / 1000000) * CACHE_READ_COST_PER_MTK

def applyUsageCall (s : UsageState) (c : UsageCall) : UsageState :=
  update_usage c.input_tokens c.output_tokens c.cache_creation_tokens c.cache_read_tokens s

def applyUsageCalls (s : UsageState) (cs : List UsageCall) : UsageState :=
  cs.foldl applyUsageCall s

def initUsageState : UsageState := { total_tokens_used := 0, estimated_cost := 0 }

/-! ## Conversation memory (src/pages/app.py lines 136-162) -/

structure MemoryEntry where
  role : String
  content : String
  timestamp : String
  metadata : List (String × String)
deriving Repr, DecidableEq

/-- Embedding of `ConversationMemory.add_to_memory` (lines 137-147): append
the entry, then, when the buffer length exceeds 40, keep only the last 40
entries (Python slice `[-40:]`, i.e. drop all but the last 40). -/
def add_to_memory (mem : List MemoryEntry) (e : MemoryEntry) : List MemoryEntry :=
  let mem2 := mem ++ [e]
  if 40 < mem2.length then mem2.drop (mem2.length - 40) else mem2

def addAllToMemory (mem : List MemoryEntry) (es : List MemoryEntry) : List MemoryEntry :=
  es.foldl add_to_memory mem

/-! ## Screening classification (src/pages/app.py lines 559-581) -/

/-- Per-student average: `sum(scores) / len(scores)` (line 569). -/
def averageScore (scores : List ℕ) : ℚ :=
  ((scores.sum : ℚ)) / ((scores.length : ℚ))

/-- Embedding of the risk tier expression of line 573:
`"priority" if avg < 2.0 else ("monitor" if avg < 2.5 else "on_track")`. -/
def risk_level (scores : List ℕ) : String :=
  if averageScore scores < 2.0 then "priority"
  else if averageScore scores < 2.5 then "monitor"
  else "on_track"

/-! ## Screening aggregation (src/pages/app.py lines 559-581) -/

/-- The canonical competency order of the screener (line 577). -/
def screeningCompetencies : List String :=
  ["Self-Awareness", "Self-Management", "Social Awareness",
   "Relationship Skills", "Decision-Making"]

/-- Screening data: the ordered mapping `student_id -> ratings` held in
`st.session_state.screening_data` (Python dicts preserve insertion order). -/
abbrev ScreeningData := List (String × List ℕ)

/-- Class-level average for competency index `i`: the mean over all
students of `scores[i]` (lines 578-580).  `getD i 0` embeds the Python
index access `scores[i]`, which agrees with it whenever every ratings
list has length 5 (the ScreeningRecord invariant). -/
def compAverage (data : ScreeningData) (i : ℕ) : ℚ :=
  (((data.map (fun p => (p.2).getD i 0)).sum : ℚ)) / ((data.length : ℚ))

/-- The `class_averages` mapping, built in canonical competency order. -/
def class_averages (data : ScreeningData) : List (String × ℚ) :=
  (screeningCompetencies.enum).map (fun p => (p.2, compAverage data p.1))

/-- One comparison step of Python `min`: replace the current best only on
a strictly smaller key value, so the first minimum encountered is kept. -/
def minStep (best p : String × ℚ) : String × ℚ :=
  if p.2 < best.2 then p else best

/-- Embedding of Python `min(d, key=d.get)` over an ordered association
list: scan left to right, replacing the current best only on a strictly
smaller value, so the first key attaining the minimum wins. -/
def minKeyByValue (l : List (String × ℚ)) : Option String :=
  match l with
  | [] => none
  | x :: xs => some ((xs.foldl minStep x).1)

/-- The class focus area `lowest_comp` of lines 642 and 1161:
`min(results["class_averages"], key=results["class_averages"].get)`. -/
def lowest_comp (data : ScreeningData) : Option String :=
  minKeyByValue (class_averages data)

/-- Per-student entry of `results["students"]` (lines 570-574). -/
structure StudentResult where
  scores : List ℕ
  average : ℚ
  risk : String
deriving Repr, DecidableEq

/-- Embedding of the `results` dict of `calculate_screening_results`
(lines 562-581).  The three risk-level buckets list student ids in
insertion (iteration) order, as the Python loop appends them. -/
structure ScreeningResults where
  total_students : ℕ
  students : List (String × StudentResult)
  classAverages : List (String × ℚ)
  priority : List String
  monitor : List String
  on_track : List String
deriving Repr, DecidableEq

/-- Embedding of `calculate_screening_results` (lines 559-581): `None` when
the screening data mapping is empty, otherwise per-student averages and
tiers, the tier buckets, and class-level per-competency averages. -/
def calculate_screening_results (data : ScreeningData) : Option ScreeningResults :=
  if data.isEmpty then none
  else some
    { total_students := data.length,
      students := data.map (fun p =>
        (p.1, { scores := p.2, average := averageScore p.2, risk := risk_level p.2 })),
      classAverages := class_averages data,
      priority := data.filterMap (fun p =>
        if risk_level p.2 = "priority" then some p.1 else none),
      monitor := data.filterMap (fun p =>
        if risk_level p.2 = "monitor" then some p.1 else none),
      on_track := data.filterMap (fun p =>
        if risk_level p.2 = "on_track" then some p.1 else none) }

/-! ## Claude call gateway (src/pages/app.py lines 235-310) -/

/-- The usage envelope reported by the provider on success. -/
structure ApiUsage where
  input_tokens : ℕ
  output_tokens : ℕ
  cache_creation_input_tokens : ℕ
  cache_read_input_tokens : ℕ
deriving Repr, DecidableEq

/-- Outcome of one attempt against the external API: a successful response
(with its text and usage envelope), a provider-reported `anthropic.APIError`,
or any other unexpected exception. -/
inductive ApiOutcome where
  | success (text : String) (usage : ApiUsage)
  | apiError (msg : String)
  | unexpectedError (msg : String)
deriving Repr, DecidableEq

/-- The per-session state touched by the gateway. -/
structure GatewayState where
  rate : RateLimiterState
  usage : UsageState
  memory : List MemoryEntry
deriving Repr, DecidableEq

/-- Embedding of `call_claude_streaming` (lines 235-275) and of the
non-streaming body of `call_claude` (lines 283-310); in both, the side
effects and result are: check the rate limit (denied: error out before
touching the API, usage, or memory); record the attempt; then on success
record usage once and append one assistant memory entry, while on
`APIError` or any unexpected error return `None` with usage and memory
untouched.  `now` is the wall-clock time and `tstr` the ISO timestamp the
memory entry is stamped with; `outcome` stands for what the external API
does on this attempt. -/
def call_claude_core (now : ℚ) (tstr : String) (outcome : ApiOutcome)
    (s : GatewayState) : Option String × GatewayState :=
  let checked := check_rate_limit now s.rate
  if checked.1.1 then
    let charged := record_api_call now checked.2
    match outcome with
    | .success text u =>
        (some text,
          { rate := charged,
            usage := update_usage u.input_tokens u.output_tokens
              u.cache_creation_input_tokens u.cache_read_input_tokens s.usage,
            memory := add_to_memory s.memory
              { role := "assistant", content := text, timestamp := tstr, metadata := [] } })
    | .apiError _ => (none, { s with rate := charged })
    | .unexpectedError _ => (none, { s with rate := charged })
  else
    (none, { s with rate := checked.2 })

/-- Embedding of `call_claude` (lines 278-310): resolve the streaming flag
(`stream` argument overriding the session default), then run the streaming
or buffered body — both of which have the behavior of `call_claude_core`. -/
def call_claude (now : ℚ) (tstr : String) (use_streaming_default : Bool)
    (stream : Option Bool) (outcome : ApiOutcome) (s : GatewayState) :
    Option String × GatewayState :=
  let should_stream := stream.getD use_streaming_default
  if should_stream then call_claude_core now tstr outcome s
  else call_claude_core now tstr outcome s

/-! ## Screener session state and tab-7 handlers (src/pages/app.py) -/

/-- The screener-related `st.session_state` fields (defaults at lines 57-62). -/
structure ScreenerState where
  screening_data : ScreeningData
  screening_grade : String
  screening_num_students : ℕ
  current_student_index : ℕ
  screening_complete : Bool
  screening_interventions : List (String × String)
deriving Repr, DecidableEq

/-- Python dict assignment `d[k] = v` on an ordered association list:
overwrite in place when the key is present, else append at the end. -/
def dictInsert (data : ScreeningData) (k : String) (v : List ℕ) : ScreeningData :=
  if data.any (fun p => p.1 = k) then
    data.map (fun p => if p.1 = k then (k, v) else p)
  else data ++ [(k, v)]

/-- Embedding of the "Next Student" / "Complete Screening" handler
(lines 1126-1133): store the ratings under the student id, then either
advance `current_student_index` or mark the screening complete at the last
index.  The handler performs no validation of the ratings. -/
def submit_next (student_id : String) (ratings : List ℕ) (s : ScreenerState) :
    ScreenerState :=
  let s2 := { s with screening_data := dictInsert s.screening_data student_id ratings }
  if s2.current_student_index < s2.screening_num_students - 1 then
    { s2 with current_student_index := s2.current_student_index + 1 }
  else
    { s2 with screening_complete := true }

/-- Embedding of the "Start Screening" handler (lines 1077-1081): clears
`screening_data`, resets `current_student_index`, and clears
`screening_complete`.  It does not touch `screening_interventions`. -/
def start_screening (s : ScreenerState) : ScreenerState :=
  { s with screening_data := [],
           current_student_index := 0,
           screening_complete := false }

/-- Embedding of the "Reset Screener" handler (lines 1045-1051): clears
records, interventions, index, and the complete flag together. -/
def reset_screener (s : ScreenerState) : ScreenerState :=
  { s with screening_data := [],
           screening_interventions := [],
           current_student_index := 0,
           screening_complete := false }

/-! ## Save / load of screening sessions (src/pages/app.py lines 687-716) -/

/-- The flat structure serialized by `save_screening_data` (the JSON layer
— a dict of strings, integers, and nested mappings — round-trips these
fields losslessly and is left implicit). -/
structure SavedScreening where
  date : String
  grade : String
  num_students : ℕ
  screening_data : ScreeningData
  results : ScreeningResults
  interventions : List (String × String)
deriving Repr, DecidableEq

/-- Embedding of `save_screening_data` (lines 687-701): `None` when there
is no screening data or no computable results, else the saved payload. -/
def save_screening_data (dateStr : String) (s : ScreenerState) :
    Option SavedScreening :=
  if s.screening_data.isEmpty then none
  else
    match calculate_screening_results s.screening_data with
    | none => none
    | some r =>
        some { date := dateStr,
               grade := s.screening_grade,
               num_students := s.screening_num_students,
               screening_data := s.screening_data,
               results := r,
               interventions := s.screening_interventions }

/-- Embedding of `load_screening_data` (lines 704-716) on a successfully
parsed payload: restore grade, student count, screening data, and
interventions; set `screening_complete` to `bool(screening_data)` and
`current_student_index` to the number of restored records. -/
def load_screening_data (d : SavedScreening) (s : ScreenerState) : ScreenerState :=
  { s with screening_grade := d.grade,
           screening_num_students := d.num_students,
           screening_data := d.screening_data,
           screening_interventions := d.interventions,
           screening_complete := !d.screening_data.isEmpty,
           current_student_index := d.screening_data.length }

/-- A sample memory entry used by concrete witnesses. -/
def sampleEntry : MemoryEntry :=
  { role := "user", content := "hello", timestamp := "t0", metadata := [] }

/-- A fresh gateway state (all `SESSION_STATE_DEFAULTS`). -/
def freshGatewayState : GatewayState :=
  { rate := initRateLimiterState, usage := initUsageState, memory := [] }

/-- A gateway state whose rate window already holds 50 calls at time 0,
so a check at time 0 is denied by the per-minute ceiling. -/
def saturatedGatewayState : GatewayState :=
  { rate := { api_call_times := List.replicate 50 0, total_api_calls := 50 },
    usage := initUsageState, memory := [] }

/-- A sample screener state mid-session, used by concrete witnesses. -/
def midScreenerState : ScreenerState :=
  { screening_data := [], screening_grade := "3rd Grade",
    screening_num_students := 3, current_student_index := 0,
    screening_complete := false, screening_interventions := [] }

/-- A sample completed screener state carrying intervention text from its
session, used to exercise the Start Screening handler. -/
def finishedScreenerState : ScreenerState :=
  { screening_data := [("Student 1", [1, 1, 1, 1, 1])],
    screening_grade := "3rd Grade", screening_num_students := 1,
    current_student_index := 0, screening_complete := true,
    screening_interventions := [("class", "old intervention text")] }

/-- The five-record, two-intervention session of the round-trip example in
spec section 8. -/
def sampleSession : ScreenerState :=
  { screening_data :=
      [("A", [1, 1, 1, 1, 1]), ("B", [2, 2, 2, 2, 2]), ("C", [3, 3, 3, 3, 3]),
       ("D", [4, 4, 4, 4, 4]), ("E", [2, 3, 2, 3, 2])],
    screening_grade := "3rd Grade", screening_num_students := 5,
    current_student_index := 5, screening_complete := true,
    screening_interventions := [("class", "class plan"), ("A", "student plan")] }

/-- Two-student screening data whose first two class competency averages
tie for the minimum, used by concrete witnesses. -/
def tieScreeningData : ScreeningData :=
  [("A", [1, 2, 3, 4, 4]), ("B", [2, 1, 4, 3, 4])]

/-- Two-student screening data with one priority and one on-track student,
used by concrete witnesses. -/
def smallScreeningData : ScreeningData :=
  [("A", [1, 1, 1, 1, 1]), ("B", [4, 4, 4, 4, 4])]

end SelAgent

/-! Quick sanity examples (spec section 8 boundary cases). -/

example : SelAgent.risk_level [1, 1, 1, 1, 1] = "priority" := by
  norm_num [SelAgent.risk_level, SelAgent.averageScore]
example : SelAgent.risk_level [4, 4, 4, 4, 4] = "on_track" := by
  norm_num [SelAgent.risk_level, SelAgent.averageScore]
example : SelAgent.risk_level [2, 2, 3, 2, 3] = "monitor" := by
  norm_num [SelAgent.risk_level, SelAgent.averageScore]
example : SelAgent.risk_level [2, 2, 2, 2, 2] = "monitor" := by
  norm_num [SelAgent.risk_level, SelAgent.averageScore]
example : SelAgent.risk_level [2, 3] = "on_track" := by
  norm_num [SelAgent.risk_level, SelAgent.averageScore]

namespace SelAgent

/-! ## C1: risk tier thresholds -/

/-- C1: for every screening record with non-empty ratings, the tier from
`calculate_screening_results` is "priority" exactly when the average is
below 2.0, "monitor" exactly when it is in [2.0, 2.5), and "on_track"
exactly when it is at least 2.5 (so average exactly 2.0 gives "monitor"
and exactly 2.5 gives "on_track"). -/
theorem C1_risk_tier_thresholds (scores : List ℕ) (h : scores ≠ []) :
    (risk_level scores = "priority" ↔ averageScore scores < 2.0) ∧
    (risk_level scores = "monitor" ↔
      2.0 ≤ averageScore scores ∧ averageScore scores < 2.5) ∧
    (risk_level scores = "on_track" ↔ 2.5 ≤ averageScore scores) := by
  unfold risk_level
  by_cases h1 : averageScore scores < 2.0
  · rw [if_pos h1]
    refine ⟨iff_of_true rfl h1, ?_, ?_⟩
    · exact iff_of_false (by decide) (fun hc => absurd h1 (not_lt.mpr hc.1))
    · refine iff_of_false (by decide) (not_le.mpr ?_)
      calc averageScore scores < 2.0 := h1
        _ < 2.5 := by norm_num
  · rw [if_neg h1]
    by_cases h2 : averageScore scores < 2.5
    · rw [if_pos h2]
      exact ⟨iff_of_false (by decide) h1,
             iff_of_true rfl ⟨not_lt.mp h1, h2⟩,
             iff_of_false (by decide) (not_le.mpr h2)⟩
    · rw [if_neg h2]
      exact ⟨iff_of_false (by decide) h1,
             iff_of_false (by decide) (fun hc => h2 hc.2),
             iff_of_true rfl (not_lt.mp h2)⟩

/-- Witness for C1 at the boundary record with all ratings 2 (average
exactly 2.0, classified "monitor"). -/
theorem C1_risk_tier_thresholds_witness :
    ([2, 2, 2, 2, 2] : List ℕ) ≠ [] ∧
    (risk_level [2, 2, 2, 2, 2] = "monitor" ↔
      2.0 ≤ averageScore [2, 2, 2, 2, 2] ∧ averageScore [2, 2, 2, 2, 2] < 2.5) :=
  ⟨by decide, (C1_risk_tier_thresholds [2, 2, 2, 2, 2] (by decide)).2.1⟩

/-! ## C3: usage cost closed form -/

theorem applyUsageCall_cost (s : UsageState) (c : UsageCall) :
    (applyUsageCall s c).estimated_cost = s.estimated_cost + usageDelta c := by
  simp [applyUsageCall, update_usage, usageDelta]

theorem applyUsageCalls_cost (cs : List UsageCall) :
    ∀ s : UsageState,
      (applyUsageCalls s cs).estimated_cost =
        s.estimated_cost + (cs.map usageDelta).sum := by
  induction cs with
  | nil => intro s; simp [applyUsageCalls]
  | cons c cs ih =>
      intro s
      have hstep : applyUsageCalls s (c :: cs) = applyUsageCalls (applyUsageCall s c) cs := rfl
      rw [hstep, ih, applyUsageCall_cost]
      simp [add_assoc]

theorem sum_usageDelta (cs : List UsageCall) :
    (cs.map usageDelta).sum =
      ((cs.map (fun c => (c.input_tokens : ℚ))).sum * INPUT_COST_PER_MTK
       + (cs.map (fun c => (c.output_tokens : ℚ))).sum * OUTPUT_COST_PER_MTK
       + (cs.map (fun c => (c.cache_creation_tokens : ℚ))).sum * CACHE_WRITE_COST_PER_MTK
       + (cs.map (fun c => (c.cache_read_tokens : ℚ))).sum * CACHE_READ_COST_PER_MTK)
      / 1000000 := by
  induction cs with
  | nil => simp
  | cons c cs ih =>
      simp only [List.map_cons, List.sum_cons, ih, usageDelta]
      field_simp
      ring

/-- C3: after any finite sequence of `update_usage` calls starting from an
estimated cost of 0, the cost equals the closed-form
`(Σ input)*3.00/1e6 + (Σ output)*15.00/1e6 + (Σ cache_creation)*3.75/1e6 +
(Σ cache_read)*0.30/1e6`, and each update leaves the cost non-decreasing. -/
theorem C3_usage_cost_closed_form :
    (∀ cs : List UsageCall,
      (applyUsageCalls initUsageState cs).estimated_cost =
        (cs.map (fun c => (c.input_tokens : ℚ))).sum * 3.00 / 1000000
        + (cs.map (fun c => (c.output_tokens : ℚ))).sum * 15.00 / 1000000
        + (cs.map (fun c => (c.cache_creation_tokens : ℚ))).sum * 3.75 / 1000000
        + (cs.map (fun c => (c.cache_read_tokens : ℚ))).sum * 0.30 / 1000000) ∧
    (∀ (s : UsageState) (c : UsageCall),
      s.estimated_cost ≤ (applyUsageCall s c).estimated_cost) := by
  constructor
  · intro cs
    rw [applyUsageCalls_cost, sum_usageDelta]
    simp only [initUsageState, INPUT_COST_PER_MTK, OUTPUT_COST_PER_MTK,
      CACHE_WRITE_COST_PER_MTK, CACHE_READ_COST_PER_MTK]
    ring
  · intro s c
    rw [applyUsageCall_cost]
    have hd : 0 ≤ usageDelta c := by
      simp only [usageDelta, INPUT_COST_PER_MTK, OUTPUT_COST_PER_MTK,
        CACHE_WRITE_COST_PER_MTK, CACHE_READ_COST_PER_MTK]
      positivity
    linarith

/-! ## C5: bounded FIFO conversation memory -/

theorem addAll_eq_drop (es : List MemoryEntry) :
    ∀ mem : List MemoryEntry, mem.length ≤ 40 →
      addAllToMemory mem es = (mem ++ es).drop (mem.length + es.length - 40) := by
  induction es with
  | nil =>
      intro mem h
      simp only [addAllToMemory, List.foldl_nil, List.append_nil, List.length_nil,
        Nat.add_zero]
      rw [Nat.sub_eq_zero_of_le h, List.drop_zero]
  | cons e es ih =>
      intro mem h
      have hstep : addAllToMemory mem (e :: es) = addAllToMemory (add_to_memory mem e) es := rfl
      rw [hstep]
      by_cases h40 : 40 < (mem ++ [e]).length
      · have hb : add_to_memory mem e = (mem ++ [e]).drop ((mem ++ [e]).length - 40) := by
          simp only [add_to_memory]
          rw [if_pos h40]
        have hble : ((mem ++ [e]).drop ((mem ++ [e]).length - 40)).length ≤ 40 := by
          rw [List.length_drop]; omega
        rw [hb, ih _ hble]
        have hadd : (mem ++ [e]).drop ((mem ++ [e]).length - 40) ++ es
            = ((mem ++ [e]) ++ es).drop ((mem ++ [e]).length - 40) :=
          (List.drop_append_of_le_length (Nat.sub_le _ _)).symm
        rw [hadd, List.drop_drop, List.append_cons mem e es]
        congr 1
        rw [List.length_drop]
        simp only [List.length_append, List.length_cons, List.length_nil] at h40 ⊢
        omega
      · have hb : add_to_memory mem e = mem ++ [e] := by
          simp only [add_to_memory]
          rw [if_neg h40]
        have hlen : (mem ++ [e]).length ≤ 40 := le_of_not_lt h40
        rw [hb, ih _ hlen]
        rw [List.append_cons mem e es]
        congr 1
        simp only [List.length_append, List.length_cons, List.length_nil]
        omega

/-- C5: appending N entries to an empty conversation memory retains
exactly the last `min N 40` entries in original order: all of them when
N ≤ 40, and exactly the last 40 (FIFO eviction of the oldest) when
N > 40. -/
theorem C5_memory_bounded_fifo (es : List MemoryEntry) :
    addAllToMemory [] es = es.drop (es.length - 40) ∧
    (addAllToMemory [] es).length = min es.length 40 ∧
    (es.length ≤ 40 → addAllToMemory [] es = es) ∧
    (40 < es.length → (addAllToMemory [] es).length = 40) := by
  have h := addAll_eq_drop es [] (by simp)
  simp only [List.nil_append, List.length_nil, Nat.zero_add] at h
  refine ⟨h, ?_, ?_, ?_⟩
  · rw [h, List.length_drop]; omega
  · intro hle
    rw [h, Nat.sub_eq_zero_of_le hle, List.drop_zero]
  · intro hgt
    rw [h, List.length_drop]; omega

/-- Witness for C5: a 2-entry history is retained whole; a 41-entry
history is truncated to length 40. -/
theorem C5_memory_bounded_fifo_witness :
    ((List.replicate 2 sampleEntry).length ≤ 40 ∧
      addAllToMemory [] (List.replicate 2 sampleEntry) = List.replicate 2 sampleEntry) ∧
    (40 < (List.replicate 41 sampleEntry).length ∧
      (addAllToMemory [] (List.replicate 41 sampleEntry)).length = 40) :=
  ⟨⟨by decide, (C5_memory_bounded_fifo (List.replicate 2 sampleEntry)).2.2.1 (by decide)⟩,
   ⟨by decide, (C5_memory_bounded_fifo (List.replicate 41 sampleEntry)).2.2.2 (by decide)⟩⟩

end SelAgent

namespace SelAgent

/-! ## C4: gateway side-effect discipline -/

/-- C4: for every gateway call, a denied rate-limit check returns the
error without consulting the API outcome and leaves usage and memory
unchanged (only the window is pruned); when the check allows, the attempt
is charged to the window, and then an API error or unexpected error
records no usage and appends no memory entry, while a success records
usage exactly once and appends exactly one assistant memory entry. -/
theorem C4_gateway_side_effects (now : ℚ) (tstr : String) (dflt : Bool)
    (strm : Option Bool) (s : GatewayState) :
    ((check_rate_limit now s.rate).1.1 = false →
      ∀ o : ApiOutcome,
        call_claude now tstr dflt strm o s
          = (none, { s with rate := (check_rate_limit now s.rate).2 })) ∧
    ((check_rate_limit now s.rate).1.1 = true →
      (∀ msg, call_claude now tstr dflt strm (.apiError msg) s
          = (none, { s with rate := record_api_call now (check_rate_limit now s.rate).2 })) ∧
      (∀ msg, call_claude now tstr dflt strm (.unexpectedError msg) s
          = (none, { s with rate := record_api_call now (check_rate_limit now s.rate).2 })) ∧
      (∀ (text : String) (u : ApiUsage),
        call_claude now tstr dflt strm (.success text u) s
          = (some text,
             { rate := record_api_call now (check_rate_limit now s.rate).2,
               usage := update_usage u.input_tokens u.output_tokens
                 u.cache_creation_input_tokens u.cache_read_input_tokens s.usage,
               memory := add_to_memory s.memory
                 { role := "assistant", content := text, timestamp := tstr,
                   metadata := [] } }))) := by
  constructor
  · intro hfalse o
    cases o <;> simp [call_claude, call_claude_core, hfalse]
  · intro htrue
    refine ⟨fun msg => ?_, fun msg => ?_, fun text u => ?_⟩ <;>
      simp [call_claude, call_claude_core, htrue]

/-- Witness for C4: a saturated window at time 0 denies the call and
leaves usage and memory untouched; a fresh state allows the call and an
API error still records no usage and no memory. -/
theorem C4_gateway_side_effects_witness :
    ((check_rate_limit 0 saturatedGatewayState.rate).1.1 = false ∧
      call_claude 0 "t0" true none (.success "hi" ⟨10, 20, 0, 0⟩) saturatedGatewayState
        = (none, { saturatedGatewayState with
                    rate := (check_rate_limit 0 saturatedGatewayState.rate).2 })) ∧
    ((check_rate_limit 0 freshGatewayState.rate).1.1 = true ∧
      call_claude 0 "t0" true none (.apiError "overloaded") freshGatewayState
        = (none, { freshGatewayState with
                    rate := record_api_call 0 (check_rate_limit 0 freshGatewayState.rate).2 })) := by
  have hden : (check_rate_limit 0 saturatedGatewayState.rate).1.1 = false := by
    simp [saturatedGatewayState, check_rate_limit, pruneHour, hourSeconds, minuteSeconds,
      MAX_CALLS_PER_MINUTE, List.filter_replicate]
  have hok : (check_rate_limit 0 freshGatewayState.rate).1.1 = true := by
    simp [freshGatewayState, initRateLimiterState, check_rate_limit, pruneHour,
      MAX_CALLS_PER_MINUTE, MAX_CALLS_PER_HOUR]
  exact ⟨⟨hden, (C4_gateway_side_effects 0 "t0" true none saturatedGatewayState).1 hden _⟩,
         ⟨hok, ((C4_gateway_side_effects 0 "t0" true none freshGatewayState).2 hok).1 "overloaded"⟩⟩

/-! ## C7: the submit handler performs no validation -/

/-- C7 counterexample: the Next Student handler, fed the malformed ratings
list [5, 5, 5, 5, 5, 5] (wrong length and out-of-range values), does not
fail: it stores the malformed record and advances the index, changing the
session state. -/
theorem C7_submit_counterexample :
    submit_next "Student 1" [5, 5, 5, 5, 5, 5] midScreenerState
      = { midScreenerState with
           screening_data := [("Student 1", [5, 5, 5, 5, 5, 5])],
           current_student_index := 1 } ∧
    submit_next "Student 1" [5, 5, 5, 5, 5, 5] midScreenerState ≠ midScreenerState := by
  constructor
  · decide
  · decide

/-- C7 amended: the Next Student / Complete Screening handler performs no
validation of the ratings: for every ratings list it writes the record
under the student id and then advances the index (below the last student)
or marks the screening complete (at the last index).  Well-formedness of
the ratings (exactly 5 values, each in 1..4) is guaranteed upstream by the
five radio inputs restricted to the options 1-4, not by this handler. -/
theorem C7_submit_always_writes (student_id : String) (ratings : List ℕ)
    (s : ScreenerState) :
    (submit_next student_id ratings s).screening_data
      = dictInsert s.screening_data student_id ratings ∧
    (s.current_student_index < s.screening_num_students - 1 →
      (submit_next student_id ratings s).current_student_index
          = s.current_student_index + 1 ∧
      (submit_next student_id ratings s).screening_complete = s.screening_complete) ∧
    (¬ s.current_student_index < s.screening_num_students - 1 →
      (submit_next student_id ratings s).screening_complete = true ∧
      (submit_next student_id ratings s).current_student_index
          = s.current_student_index) := by
  by_cases h : s.current_student_index < s.screening_num_students - 1 <;>
    simp [submit_next, h]

/-- Witness for C7 at a mid-session state (index 0 of 3, so the submit
advances) and at the last index (index 2 of 3, so the submit completes). -/
theorem C7_submit_always_writes_witness :
    (midScreenerState.current_student_index < midScreenerState.screening_num_students - 1 ∧
      (submit_next "S" [1, 2, 3, 4, 1] midScreenerState).current_student_index
        = midScreenerState.current_student_index + 1) ∧
    (¬ { midScreenerState with current_student_index := 2 }.current_student_index
        < { midScreenerState with current_student_index := 2 }.screening_num_students - 1 ∧
      (submit_next "S" [1, 2, 3, 4, 1]
        { midScreenerState with current_student_index := 2 }).screening_complete = true) :=
  ⟨⟨by decide,
    ((C7_submit_always_writes "S" [1, 2, 3, 4, 1] midScreenerState).2.1 (by decide)).1⟩,
   ⟨by decide,
    ((C7_submit_always_writes "S" [1, 2, 3, 4, 1]
        { midScreenerState with current_student_index := 2 }).2.2 (by decide)).1⟩⟩

/-! ## C8: Start Screening does not clear interventions -/

/-- C8 counterexample: starting a new screening from a completed session
that holds intervention text leaves that text in place — the stored
interventions survive the restart, contradicting the claim that the start
action clears them. -/
theorem C8_start_counterexample :
    (start_screening finishedScreenerState).screening_interventions
      = [("class", "old intervention text")] ∧
    (start_screening finishedScreenerState).screening_interventions ≠ [] := by
  constructor
  · decide
  · decide

/-- C8 amended: the Start Screening action, valid from any state, clears
the screening records, resets the index to 0 and the complete flag to
false, but leaves the stored interventions untouched; only the separate
Reset Screener action clears records, interventions, index, and flag
together, so intervention text from a previous session can survive a
restart performed through Start Screening. -/
theorem C8_start_and_reset_effects (s : ScreenerState) :
    (start_screening s).screening_data = [] ∧
    (start_screening s).current_student_index = 0 ∧
    (start_screening s).screening_complete = false ∧
    (start_screening s).screening_interventions = s.screening_interventions ∧
    (reset_screener s).screening_data = [] ∧
    (reset_screener s).screening_interventions = [] ∧
    (reset_screener s).current_student_index = 0 ∧
    (reset_screener s).screening_complete = false := by
  simp [start_screening, reset_screener]

/-! ## C9: save/load round trip -/

/-- C9: serializing a session with records through `save_screening_data`
and loading it back with `load_screening_data` restores the screening data
and interventions exactly, restores the complete flag (true, since the
records are non-empty), and recomputing `calculate_screening_results` on
the restored data gives results identical to the pre-serialization
computation; moreover loading any payload sets the complete flag to true
exactly when the restored records mapping is non-empty. -/
theorem C9_save_load_round_trip :
    (∀ (dateStr : String) (s s₂ : ScreenerState), s.screening_data ≠ [] →
      ∃ d : SavedScreening,
        save_screening_data dateStr s = some d ∧
        (load_screening_data d s₂).screening_data = s.screening_data ∧
        (load_screening_data d s₂).screening_interventions
          = s.screening_interventions ∧
        (load_screening_data d s₂).screening_complete = true ∧
        calculate_screening_results (load_screening_data d s₂).screening_data
          = calculate_screening_results s.screening_data) ∧
    (∀ (d : SavedScreening) (s₂ : ScreenerState),
      (load_screening_data d s₂).screening_complete = !d.screening_data.isEmpty) := by
  constructor
  · intro dateStr s s₂ hne
    have hempty : s.screening_data.isEmpty = false := by
      cases h : s.screening_data with
      | nil => exact absurd h hne
      | cons a l => rfl
    have hnotempty : ¬ s.screening_data.isEmpty = true := by simp [hempty]
    have hcalc : ∃ r, calculate_screening_results s.screening_data = some r := by
      unfold calculate_screening_results
      rw [if_neg hnotempty]
      exact ⟨_, rfl⟩
    obtain ⟨r, hr⟩ := hcalc
    refine ⟨⟨dateStr, s.screening_grade, s.screening_num_students,
             s.screening_data, r, s.screening_interventions⟩, ?_, rfl, rfl, ?_, rfl⟩
    · unfold save_screening_data
      rw [if_neg hnotempty, hr]
    · simp [load_screening_data, hempty]
  · intro d s₂
    rfl

/-- Witness for C9 at the five-record, two-intervention sample session. -/
theorem C9_save_load_round_trip_witness :
    sampleSession.screening_data ≠ [] ∧
    ∃ d : SavedScreening,
      save_screening_data "2026-10-12" sampleSession = some d ∧
      (load_screening_data d sampleSession).screening_data
        = sampleSession.screening_data ∧
      (load_screening_data d sampleSession).screening_interventions
        = sampleSession.screening_interventions ∧
      (load_screening_data d sampleSession).screening_complete = true ∧
      calculate_screening_results (load_screening_data d sampleSession).screening_data
        = calculate_screening_results sampleSession.screening_data :=
  ⟨by decide,
   (C9_save_load_round_trip).1 "2026-10-12" sampleSession sampleSession (by decide)⟩

end SelAgent

namespace SelAgent

/-! ## C6: class focus area is the first minimal competency -/

theorem foldl_minStep_first (l : List (String × ℚ)) :
    ∀ x : String × ℚ,
      ∃ pre post,
        x :: l = pre ++ (l.foldl minStep x) :: post ∧
        (∀ p ∈ pre, (l.foldl minStep x).2 < p.2) ∧
        (∀ p ∈ x :: l, (l.foldl minStep x).2 ≤ p.2) := by
  induction l with
  | nil =>
      intro x
      exact ⟨[], [], rfl, by simp, by simp [List.foldl_nil]⟩
  | cons q l ih =>
      intro x
      have hfold : (q :: l).foldl minStep x = l.foldl minStep (minStep x q) := rfl
      obtain ⟨pre, post, hsplit, hpre, hmin⟩ := ih (minStep x q)
      by_cases hq : q.2 < x.2
      · have hxq : minStep x q = q := by simp [minStep, hq]
        rw [hxq] at hsplit hpre hmin
        have hrq : (l.foldl minStep q).2 ≤ q.2 := hmin q (List.mem_cons_self q l)
        refine ⟨x :: pre, post, ?_, ?_, ?_⟩
        · rw [hfold, hxq, List.cons_append, ← hsplit]
        · intro p hp
          rcases List.mem_cons.mp hp with rfl | hp
          · rw [hfold, hxq]
            exact lt_of_le_of_lt hrq hq
          · rw [hfold, hxq]
            exact hpre p hp
        · intro p hp
          rcases List.mem_cons.mp hp with rfl | hp
          · rw [hfold, hxq]
            exact le_of_lt (lt_of_le_of_lt hrq hq)
          · rw [hfold, hxq]
            exact hmin p hp
      · have hxq : minStep x q = x := by simp [minStep, hq]
        rw [hxq] at hsplit hpre hmin
        have hxle : x.2 ≤ q.2 := le_of_not_lt hq
        cases pre with
        | nil =>
            have hx : l.foldl minStep x = x := by
              have := hsplit
              simp only [List.nil_append] at this
              exact (List.cons_eq_cons.mp this).1.symm
            refine ⟨[], q :: l, ?_, by simp, ?_⟩
            · rw [hfold, hxq, hx, List.nil_append]
            · intro p hp
              rcases List.mem_cons.mp hp with rfl | hp
              · rw [hfold, hxq, hx]
              · rcases List.mem_cons.mp hp with rfl | hp
                · rw [hfold, hxq, hx]
                  exact hxle
                · rw [hfold, hxq]
                  exact hmin p (List.mem_cons_of_mem x hp)
        | cons a pre₂ =>
            have hcons := hsplit
            simp only [List.cons_append] at hcons
            obtain ⟨hax, hl⟩ := List.cons_eq_cons.mp hcons
            have hra : (l.foldl minStep x).2 < a.2 := hpre a (List.mem_cons_self a pre₂)
            refine ⟨x :: q :: pre₂, post, ?_, ?_, ?_⟩
            · rw [hfold, hxq]
              simp only [List.cons_append]
              rw [← hl]
            · intro p hp
              rcases List.mem_cons.mp hp with rfl | hp
              · rw [hfold, hxq]
                exact lt_of_lt_of_eq hra (congrArg Prod.snd hax).symm
              · rcases List.mem_cons.mp hp with rfl | hp
                · rw [hfold, hxq]
                  calc (l.foldl minStep x).2 < a.2 := hra
                    _ = x.2 := by rw [hax]
                    _ ≤ p.2 := hxle
                · rw [hfold, hxq]
                  exact hpre p (List.mem_cons_of_mem a hp)
            · intro p hp
              rcases List.mem_cons.mp hp with rfl | hp
              · rw [hfold, hxq]
                exact hmin p (List.mem_cons_self p l)
              · rcases List.mem_cons.mp hp with rfl | hp
                · rw [hfold, hxq]
                  exact le_trans
                    (le_of_lt (lt_of_lt_of_eq hra (congrArg Prod.snd hax).symm)) hxle
                · rw [hfold, hxq]
                  exact hmin p (List.mem_cons_of_mem x hp)

/-- C6: for every non-empty screening data set, `lowest_comp` picks the
competency whose class-level average is minimal among the five class
averages, and on ties the earliest competency in the canonical order
(the competencies preceding it in `class_averages` all have strictly
larger averages). -/
theorem C6_class_focus_minimum (data : ScreeningData) (h : data ≠ []) :
    ∃ (c : String) (v : ℚ) (pre post : List (String × ℚ)),
      lowest_comp data = some c ∧
      class_averages data = pre ++ (c, v) :: post ∧
      (∀ p ∈ class_averages data, v ≤ p.2) ∧
      (∀ p ∈ pre, v < p.2) := by
  have hca : class_averages data
      = ("Self-Awareness", compAverage data 0)
        :: [("Self-Management", compAverage data 1),
            ("Social Awareness", compAverage data 2),
            ("Relationship Skills", compAverage data 3),
            ("Decision-Making", compAverage data 4)] := rfl
  obtain ⟨pre, post, hsplit, hpre, hmin⟩ := foldl_minStep_first
    [("Self-Management", compAverage data 1),
     ("Social Awareness", compAverage data 2),
     ("Relationship Skills", compAverage data 3),
     ("Decision-Making", compAverage data 4)]
    ("Self-Awareness", compAverage data 0)
  refine ⟨_, _, pre, post, rfl, ?_, ?_, hpre⟩
  · rw [hca]
    exact hsplit
  · intro p hp
    rw [hca] at hp
    exact hmin p hp

/-- Witness for C6 at a data set whose first two class averages tie at
the minimum. -/
theorem C6_class_focus_minimum_witness :
    tieScreeningData ≠ [] ∧
    ∃ (c : String) (v : ℚ) (pre post : List (String × ℚ)),
      lowest_comp tieScreeningData = some c ∧
      class_averages tieScreeningData = pre ++ (c, v) :: post ∧
      (∀ p ∈ class_averages tieScreeningData, v ≤ p.2) ∧
      (∀ p ∈ pre, v < p.2) :=
  ⟨by decide, C6_class_focus_minimum tieScreeningData (by decide)⟩

end SelAgent

namespace SelAgent

/-! ## C10: guard, positive divisors, and tier partition -/

theorem risk_level_cases (scores : List ℕ) :
    risk_level scores = "priority" ∨ risk_level scores = "monitor" ∨
    risk_level scores = "on_track" := by
  unfold risk_level
  split_ifs
  · exact Or.inl rfl
  · exact Or.inr (Or.inl rfl)
  · exact Or.inr (Or.inr rfl)

theorem keys_nodup_unique :
    ∀ {data : ScreeningData}, (data.map Prod.fst).Nodup →
      ∀ p ∈ data, ∀ q ∈ data, p.1 = q.1 → p = q := by
  intro data
  induction data with
  | nil =>
      intro _ p hp
      exact absurd hp (List.not_mem_nil p)
  | cons a l ih =>
      intro h p hp q hq hpq
      simp only [List.map_cons, List.nodup_cons] at h
      obtain ⟨ha, hl⟩ := h
      rcases List.mem_cons.mp hp with hpa | hpl
      · rcases List.mem_cons.mp hq with hqa | hql
        · rw [hpa, hqa]
        · exfalso
          apply ha
          rw [hpa] at hpq
          rw [hpq]
          exact List.mem_map_of_mem Prod.fst hql
      · rcases List.mem_cons.mp hq with hqa | hql
        · exfalso
          apply ha
          rw [hqa] at hpq
          rw [← hpq]
          exact List.mem_map_of_mem Prod.fst hpl
        · exact ih hl p hpl q hql hpq

theorem mem_bucket_iff (data : ScreeningData) (b sid : String) :
    sid ∈ data.filterMap (fun p => if risk_level p.2 = b then some p.1 else none) ↔
      ∃ p, p ∈ data ∧ p.1 = sid ∧ risk_level p.2 = b := by
  rw [List.mem_filterMap]
  constructor
  · rintro ⟨p, hp, hf⟩
    by_cases hb : risk_level p.2 = b
    · rw [if_pos hb] at hf
      exact ⟨p, hp, Option.some.inj hf, hb⟩
    · rw [if_neg hb] at hf
      simp at hf
  · rintro ⟨p, hp, hsid, hb⟩
    exact ⟨p, hp, by rw [if_pos hb, hsid]⟩

theorem not_mem_bucket_of_level {data : ScreeningData}
    (hnodup : (data.map Prod.fst).Nodup) {p : String × List ℕ} (hp : p ∈ data)
    {b : String} (hb : risk_level p.2 ≠ b) :
    p.1 ∉ data.filterMap (fun q => if risk_level q.2 = b then some q.1 else none) := by
  intro hmem
  obtain ⟨q, hq, hq1, hqb⟩ := (mem_bucket_iff data b p.1).mp hmem
  have heq := keys_nodup_unique hnodup q hq p hp hq1
  rw [heq] at hqb
  exact hb hqb

/-- C10: `calculate_screening_results` returns `None` exactly on an empty
screening data mapping; on a non-empty mapping (with the invariant that
student ids are unique and every ratings list is non-empty, as the UI
guarantees) it returns a result whose per-student and class-level average
divisions are all by strictly positive counts, and every student id lands
in exactly one of the three risk buckets. -/
theorem C10_results_guard_and_partition :
    calculate_screening_results [] = none ∧
    (∀ data : ScreeningData, data ≠ [] → (data.map Prod.fst).Nodup →
      (∀ p ∈ data, p.2 ≠ []) →
      ∃ r, calculate_screening_results data = some r ∧
        0 < r.total_students ∧
        (∀ q ∈ r.students, 0 < q.2.scores.length) ∧
        (∀ p ∈ data,
          (p.1 ∈ r.priority ∧ p.1 ∉ r.monitor ∧ p.1 ∉ r.on_track) ∨
          (p.1 ∉ r.priority ∧ p.1 ∈ r.monitor ∧ p.1 ∉ r.on_track) ∨
          (p.1 ∉ r.priority ∧ p.1 ∉ r.monitor ∧ p.1 ∈ r.on_track))) := by
  constructor
  · rfl
  · intro data hne hnodup hscores
    have hnotempty : ¬ data.isEmpty = true := by
      simp only [List.isEmpty_iff]
      exact hne
    refine ⟨{ total_students := data.length,
              students := data.map (fun p =>
                (p.1, { scores := p.2, average := averageScore p.2,
                        risk := risk_level p.2 })),
              classAverages := class_averages data,
              priority := data.filterMap (fun p =>
                if risk_level p.2 = "priority" then some p.1 else none),
              monitor := data.filterMap (fun p =>
                if risk_level p.2 = "monitor" then some p.1 else none),
              on_track := data.filterMap (fun p =>
                if risk_level p.2 = "on_track" then some p.1 else none) },
            ?_, ?_, ?_, ?_⟩
    · unfold calculate_screening_results
      rw [if_neg hnotempty]
    · exact List.length_pos.mpr hne
    · intro q hq
      obtain ⟨p, hp, rfl⟩ := List.mem_map.mp hq
      exact List.length_pos.mpr (hscores p hp)
    · intro p hp
      rcases risk_level_cases p.2 with hb | hb | hb
      · exact Or.inl ⟨(mem_bucket_iff data "priority" p.1).mpr ⟨p, hp, rfl, hb⟩,
          not_mem_bucket_of_level hnodup hp (by rw [hb]; decide),
          not_mem_bucket_of_level hnodup hp (by rw [hb]; decide)⟩
      · exact Or.inr (Or.inl ⟨not_mem_bucket_of_level hnodup hp (by rw [hb]; decide),
          (mem_bucket_iff data "monitor" p.1).mpr ⟨p, hp, rfl, hb⟩,
          not_mem_bucket_of_level hnodup hp (by rw [hb]; decide)⟩)
      · exact Or.inr (Or.inr ⟨not_mem_bucket_of_level hnodup hp (by rw [hb]; decide),
          not_mem_bucket_of_level hnodup hp (by rw [hb]; decide),
          (mem_bucket_iff data "on_track" p.1).mpr ⟨p, hp, rfl, hb⟩⟩)

/-- Witness for C10 at a two-student data set. -/
theorem C10_results_guard_and_partition_witness :
    smallScreeningData ≠ [] ∧
    (smallScreeningData.map Prod.fst).Nodup ∧
    (∀ p ∈ smallScreeningData, p.2 ≠ []) ∧
    ∃ r, calculate_screening_results smallScreeningData = some r ∧
      0 < r.total_students ∧
      (∀ q ∈ r.students, 0 < q.2.scores.length) ∧
      (∀ p ∈ smallScreeningData,
        (p.1 ∈ r.priority ∧ p.1 ∉ r.monitor ∧ p.1 ∉ r.on_track) ∨
        (p.1 ∉ r.priority ∧ p.1 ∈ r.monitor ∧ p.1 ∉ r.on_track) ∨
        (p.1 ∉ r.priority ∧ p.1 ∉ r.monitor ∧ p.1 ∈ r.on_track)) :=
  ⟨by decide, by decide, by decide,
   C10_results_guard_and_partition.2 smallScreeningData
     (by decide) (by decide) (by decide)⟩

end SelAgent

namespace SelAgent

/-! ## C2: sliding-window rate limiter bounds -/

theorem length_filter_le_of_imp {α : Type} (l : List α) (p q : α → Bool)
    (h : ∀ x ∈ l, p x = true → q x = true) :
    (l.filter p).length ≤ (l.filter q).length := by
  induction l with
  | nil => simp
  | cons a l ih =>
      have hrec := ih (fun x hx => h x (List.mem_cons_of_mem a hx))
      simp only [List.filter_cons]
      by_cases hpa : p a = true
      · rw [if_pos hpa, if_pos (h a (List.mem_cons_self a l) hpa)]
        simpa using hrec
      · rw [if_neg hpa]
        by_cases hqa : q a = true
        · rw [if_pos hqa]
          simp only [List.length_cons]
          exact le_trans hrec (Nat.le_succ _)
        · rw [if_neg hqa]
          exact hrec

theorem filter_hour_eq (now : ℚ) (P : List ℚ) :
    P.filter (fun x => decide (now - x < hourSeconds))
      = P.filter (fun x => decide (now - hourSeconds < x)) := by
  apply List.filter_congr
  intro x _
  exact decide_eq_decide.mpr (by constructor <;> intro <;> linarith)

theorem rateLimitedCall_eq (now : ℚ) (s : RateLimiterState) :
    rateLimitedCall now s =
      if MAX_CALLS_PER_MINUTE ≤
          ((pruneHour now s.api_call_times).filter
            (fun t => decide (now - t < minuteSeconds))).length then
        (false, { s with api_call_times := pruneHour now s.api_call_times })
      else if MAX_CALLS_PER_HOUR ≤ (pruneHour now s.api_call_times).length then
        (false, { s with api_call_times := pruneHour now s.api_call_times })
      else
        (true, { api_call_times := pruneHour now s.api_call_times ++ [now],
                 total_api_calls := s.total_api_calls + 1 }) := by
  simp only [rateLimitedCall, check_rate_limit, record_api_call]
  by_cases h1 : MAX_CALLS_PER_MINUTE ≤
      ((pruneHour now s.api_call_times).filter
        (fun t => decide (now - t < minuteSeconds))).length
  · simp [h1]
  · by_cases h2 : MAX_CALLS_PER_HOUR ≤ (pruneHour now s.api_call_times).length
    · simp [h1, h2]
    · simp [h1, h2]

theorem windowCount_le (d : ℚ) (k : ℕ) (T : ℚ) :
    ∀ A : List ℚ,
      (∀ pre t post, A = pre ++ t :: post →
        (pre.filter (fun s => decide (t - s < d))).length < k) →
      windowCount d T A ≤ k := by
  intro A
  induction A using List.reverseRecOn with
  | nil =>
      intro _
      simp [windowCount]
  | append_singleton B t ih =>
      intro hsplit
      have hB : ∀ pre t0 post, B = pre ++ t0 :: post →
          (pre.filter (fun s => decide (t0 - s < d))).length < k := by
        intro pre t0 post hb
        exact hsplit pre t0 (post ++ [t]) (by rw [hb]; simp)
      unfold windowCount
      rw [List.filter_append]
      simp only [List.filter_cons, List.filter_nil]
      by_cases ht : (decide (t ≤ T) && decide (T - t < d)) = true
      · rw [if_pos ht]
        simp only [Bool.and_eq_true, decide_eq_true_eq] at ht
        have hkey := hsplit B t [] rfl
        have hmono := length_filter_le_of_imp B
          (fun x => decide (x ≤ T) && decide (T - x < d))
          (fun s => decide (t - s < d))
          (by
            intro x _ hx
            simp only [Bool.and_eq_true, decide_eq_true_eq] at hx
            simp only [decide_eq_true_eq]
            calc t - x ≤ T - x := by linarith [ht.1]
              _ < d := hx.2)
        rw [List.length_append, List.length_cons, List.length_nil]
        have := lt_of_le_of_lt hmono hkey
        omega
      · rw [if_neg ht]
        simp only [List.append_nil]
        exact ih hB

end SelAgent

namespace SelAgent

theorem runCalls_allowed_splits (ts : List ℚ) :
    ∀ (P w : List ℚ) (n : ℕ) (c : ℚ),
      w = P.filter (fun x => decide (c < x)) →
      List.Sorted (· ≤ ·) ts →
      (∀ x ∈ P, ∀ u ∈ ts, x ≤ u) →
      (∀ u ∈ ts, c + hourSeconds ≤ u) →
      ∀ pre t post,
        (runCalls ⟨w, n⟩ ts).2 = pre ++ t :: post →
        ((P ++ pre).filter (fun s => decide (t - s < minuteSeconds))).length
            < MAX_CALLS_PER_MINUTE ∧
        ((P ++ pre).filter (fun s => decide (t - s < hourSeconds))).length
            < MAX_CALLS_PER_HOUR := by
  induction ts with
  | nil =>
      intro P w n c hw hsort hPle hc pre t post h
      simp [runCalls] at h
  | cons t0 rest ih =>
      intro P w n c hw hsort hPle hc pre t post h
      have hsort' : List.Sorted (· ≤ ·) rest := hsort.of_cons
      have ht0rest : ∀ u ∈ rest, t0 ≤ u := List.rel_of_sorted_cons hsort
      have hct0 : c + hourSeconds ≤ t0 := hc t0 (List.mem_cons_self t0 rest)
      have hpruned : pruneHour t0 w
          = P.filter (fun x => decide (t0 - x < hourSeconds)) := by
        rw [hw]
        unfold pruneHour
        rw [List.filter_filter]
        apply List.filter_congr
        intro x _
        by_cases hx3 : t0 - x < hourSeconds
        · have hcx : c < x := by linarith
          simp [hx3, hcx]
        · simp [hx3]
      have hrecent :
          (P.filter (fun x => decide (t0 - x < hourSeconds))).filter
              (fun x => decide (t0 - x < minuteSeconds))
            = P.filter (fun x => decide (t0 - x < minuteSeconds)) := by
        rw [List.filter_filter]
        apply List.filter_congr
        intro x _
        by_cases hm : t0 - x < minuteSeconds
        · have hh : t0 - x < hourSeconds := by
            have hmh : minuteSeconds < hourSeconds := by
              norm_num [minuteSeconds, hourSeconds]
            linarith
          simp [hm, hh]
        · simp [hm]
      have hrc := rateLimitedCall_eq t0 ⟨w, n⟩
      dsimp only at hrc
      rw [hpruned, hrecent] at hrc
      have hPle' : ∀ x ∈ P, ∀ u ∈ rest, x ≤ u :=
        fun x hx u hu => hPle x hx u (List.mem_cons_of_mem t0 hu)
      have hc' : ∀ u ∈ rest, (t0 - hourSeconds) + hourSeconds ≤ u := by
        intro u hu
        have := ht0rest u hu
        linarith
      by_cases hm50 : MAX_CALLS_PER_MINUTE ≤
          (P.filter (fun x => decide (t0 - x < minuteSeconds))).length
      · rw [if_pos hm50] at hrc
        have h2 : (runCalls ⟨w, n⟩ (t0 :: rest)).2
            = (runCalls ⟨P.filter (fun x => decide (t0 - x < hourSeconds)), n⟩ rest).2 := by
          have h0 : (runCalls ⟨w, n⟩ (t0 :: rest)).2
              = (if (rateLimitedCall t0 ⟨w, n⟩).1 then [t0] else [])
                  ++ (runCalls (rateLimitedCall t0 ⟨w, n⟩).2 rest).2 := rfl
          rw [h0, hrc]
          simp
        rw [h2] at h
        exact ih P _ n (t0 - hourSeconds) (filter_hour_eq t0 P)
          hsort' hPle' hc' pre t post h
      · rw [if_neg hm50] at hrc
        by_cases hh1000 : MAX_CALLS_PER_HOUR ≤
            (P.filter (fun x => decide (t0 - x < hourSeconds))).length
        · rw [if_pos hh1000] at hrc
          have h2 : (runCalls ⟨w, n⟩ (t0 :: rest)).2
              = (runCalls ⟨P.filter (fun x => decide (t0 - x < hourSeconds)), n⟩ rest).2 := by
            have h0 : (runCalls ⟨w, n⟩ (t0 :: rest)).2
                = (if (rateLimitedCall t0 ⟨w, n⟩).1 then [t0] else [])
                    ++ (runCalls (rateLimitedCall t0 ⟨w, n⟩).2 rest).2 := rfl
            rw [h0, hrc]
            simp
          rw [h2] at h
          exact ih P _ n (t0 - hourSeconds) (filter_hour_eq t0 P)
            hsort' hPle' hc' pre t post h
        · rw [if_neg hh1000] at hrc
          have h2 : (runCalls ⟨w, n⟩ (t0 :: rest)).2
              = t0 :: (runCalls
                  ⟨P.filter (fun x => decide (t0 - x < hourSeconds)) ++ [t0], n + 1⟩
                  rest).2 := by
            have h0 : (runCalls ⟨w, n⟩ (t0 :: rest)).2
                = (if (rateLimitedCall t0 ⟨w, n⟩).1 then [t0] else [])
                    ++ (runCalls (rateLimitedCall t0 ⟨w, n⟩).2 rest).2 := rfl
            rw [h0, hrc]
            simp
          rw [h2] at h
          cases pre with
          | nil =>
              simp only [List.nil_append] at h
              obtain ⟨ht, _⟩ := List.cons_eq_cons.mp h
              subst ht
              rw [List.append_nil]
              exact ⟨not_le.mp hm50, not_le.mp hh1000⟩
          | cons q pre2 =>
              simp only [List.cons_append] at h
              obtain ⟨hq, hrest⟩ := List.cons_eq_cons.mp h
              have hw' : P.filter (fun x => decide (t0 - x < hourSeconds)) ++ [t0]
                  = (P ++ [t0]).filter (fun x => decide (t0 - hourSeconds < x)) := by
                rw [List.filter_append]
                congr 1
                · exact filter_hour_eq t0 P
                · have hself : t0 - hourSeconds < t0 := by
                    norm_num [hourSeconds]
                  simp [hself]
              have hPle2 : ∀ x ∈ P ++ [t0], ∀ u ∈ rest, x ≤ u := by
                intro x hx u hu
                rcases List.mem_append.mp hx with hxP | hxt
                · exact hPle' x hxP u hu
                · rw [List.mem_singleton.mp hxt]
                  exact ht0rest u hu
              have hresult := ih (P ++ [t0]) _ (n + 1) (t0 - hourSeconds)
                hw' hsort' hPle2 hc' pre2 t post hrest
              rw [← hq, List.append_cons P t0 pre2]
              exact hresult

end SelAgent

namespace SelAgent

/-- C2: for any sequence of gateway attempts at nondecreasing times (each
attempt runs `check_rate_limit` and, when allowed, immediately
`record_api_call`, as both gateway call sites do), the number of allowed
attempts whose timestamps fall in any trailing 60-second window never
exceeds 50, and in any trailing 3600-second window never exceeds 1000;
moreover `check_rate_limit` always replaces the window by its hour-pruned
version before applying either ceiling. -/
theorem C2_rate_limiter_window_bounds (ts : List ℚ)
    (hsort : List.Sorted (· ≤ ·) ts) :
    (∀ (now : ℚ) (s : RateLimiterState),
      (check_rate_limit now s).2.api_call_times = pruneHour now s.api_call_times) ∧
    ∀ T : ℚ,
      windowCount minuteSeconds T (runCalls initRateLimiterState ts).2
          ≤ MAX_CALLS_PER_MINUTE ∧
      windowCount hourSeconds T (runCalls initRateLimiterState ts).2
          ≤ MAX_CALLS_PER_HOUR := by
  constructor
  · intro now s
    simp only [check_rate_limit]
    split_ifs <;> rfl
  · intro T
    cases ts with
    | nil =>
        constructor <;> simp [runCalls, windowCount, initRateLimiterState]
    | cons t0 rest =>
        have hsplits := runCalls_allowed_splits (t0 :: rest) [] [] 0 (t0 - hourSeconds)
          rfl hsort (fun x hx => absurd hx (List.not_mem_nil x))
          (by
            intro u hu
            rcases List.mem_cons.mp hu with rfl | hu
            · linarith
            · have := List.rel_of_sorted_cons hsort u hu
              linarith)
        constructor
        · apply windowCount_le
          intro pre t post hsplit
          have hb := (hsplits pre t post hsplit).1
          simpa using hb
        · apply windowCount_le
          intro pre t post hsplit
          have hb := (hsplits pre t post hsplit).2
          simpa using hb

/-- Witness for C2 at the call times 0, 10, 3700 seconds and the window
anchors 60 and 3700. -/
theorem C2_rate_limiter_window_bounds_witness :
    List.Sorted (· ≤ ·) ([0, 10, 3700] : List ℚ) ∧
    windowCount minuteSeconds 60 (runCalls initRateLimiterState [0, 10, 3700]).2
        ≤ MAX_CALLS_PER_MINUTE ∧
    windowCount hourSeconds 3700 (runCalls initRateLimiterState [0, 10, 3700]).2
        ≤ MAX_CALLS_PER_HOUR := by
  have hs : List.Sorted (· ≤ ·) ([0, 10, 3700] : List ℚ) := by
    norm_num [List.sorted_cons]
  exact ⟨hs, ((C2_rate_limiter_window_bounds [0, 10, 3700] hs).2 60).1,
         ((C2_rate_limiter_window_bounds [0, 10, 3700] hs).2 3700).2⟩

end SelAgent
